import Mathlib

/-!
Shallow embedding of `kep/spec.py` (specification data model: units,
parsing instructions, scopes, definitions, specification) and of the
row-matching primitives of `kep/rows.py` (Row, RowStack), the latter
modelled from the design document since only its tests are in the tree.

Python strings become `String`, Python lists become `List`, ordered
dictionaries become association lists with ordered-dict update
semantics, and raising code returns `Except String`/`Option String`
errors.
-/

namespace Kep

/-- A character treated as a quote by the label-normalization rule
(straight and curly double quotes). -/
def isQuoteChar (c : Char) : Bool :=
  c = '"' || c = '“' || c = '”'

/-- Modelled from the spec: label text normalization maps any quote
character to a single canonical form; per the tests, a pattern with
quotes matches a label without them, so normalization drops quote
characters. -/
def normQuotes (s : String) : String :=
  String.mk (s.toList.filter (fun c => !isQuoteChar c))

/-- True iff `needle` occurs as a contiguous run inside `hay` (Python's
`needle in hay` on strings), on character lists. -/
def listHasSub (hay needle : List Char) : Bool :=
  match hay with
  | [] => needle.isEmpty
  | c :: t => needle.isPrefixOf (c :: t) || listHasSub t needle

/-- True iff `needle` is a substring of `hay` (Python `needle in hay`). -/
def strHasSub (hay needle : String) : Bool :=
  listHasSub hay.toList needle.toList

/-- Embeds `kep.rows.Row`: one CSV line split into a label cell (`name`) and
trailing data cells. Modelled from the spec and the tests in
`kep/tests/test_rows.py` (the module itself is not in the tree). -/
structure Row where
  name : String
  data : List String

deriving instance DecidableEq for Row

/-- Modelled from the spec: quote-normalizing prefix test
`Row.startswith` — true iff the row's label, quotes dropped, begins
with the text, quotes dropped. -/
def Row.startswith (r : Row) (text : String) : Bool :=
  (normQuotes text).toList.isPrefixOf (normQuotes r.name).toList

/-- The predicate `Row.startswith · text` as a function of the row,
used for marker searches. -/
def startsP (text : String) : Row → Bool :=
  fun r => r.startswith text

/-- Modelled from the spec: the ambiguity error raised when more than
one mapper key prefix-matches a row's label. -/
def ambiguityMessage (r : Row) : String :=
  "error: more than one varname found in row <" ++ r.name ++ ">"

/-- Modelled from the spec: `Row.get_varname` scans the mapper keys
that prefix-match the label: zero hits is the not-found value
(`Except.ok none`, Python `False`), one hit returns that key's
variable, several hits raise. -/
def Row.get_varname (r : Row) (mapper : List (String × String)) :
    Except String (Option String) :=
  match mapper.filter (fun kv => r.startswith kv.1) with
  | [] => Except.ok none
  | [kv] => Except.ok (some kv.2)
  | _ :: _ :: _ => Except.error (ambiguityMessage r)

/-- Modelled from the spec: `Row.get_unit` scans the unit lexicon in
declared order and returns the unit code of the first pattern found as
a substring of the label. -/
def Row.get_unit (r : Row) (lexicon : List (String × String)) : Option String :=
  (lexicon.find? (fun p => strHasSub r.name p.1)).map Prod.snd

/-- Modelled from the spec: `RowStack.pop start end` scans the
remaining rows for the first row prefix-matching the start marker,
then for the first subsequent row prefix-matching the end marker,
returns the run from the start row up to but excluding the end-marker
row, and truncates the remaining rows to begin at the end-marker row.
Returns (popped segment, remaining rows). -/
def popSegment (rows : List Row) (pstart pend : String) :
    List Row × List Row :=
  let i := rows.findIdx (startsP pstart)
  let j := i + 1 + (rows.drop (i + 1)).findIdx (startsP pend)
  ((rows.take j).drop i, rows.drop j)

/-- The six mock rows of `kep/tests/test_rows.py`. -/
def mockRows : List Row :=
  [⟨"apt extra text", ["1", "2"]⟩,
   ⟨"bat aa...ah", ["1", "2"]⟩,
   ⟨"can extra text", ["1", "2"]⟩,
   ⟨"dot oo...eh", ["1", "2"]⟩,
   ⟨"wed more text", ["1", "2"]⟩,
   ⟨"zed some text", []⟩]

/-! ## Ordered dictionaries as association lists -/

/-- Python `dict` assignment of one key: replace the value in place if
the key exists (keeping its position), otherwise push the pair at the
end. -/
def odictInsert (m : List (String × String)) (k v : String) :
    List (String × String) :=
  if m.any (fun kv => kv.1 == k) then
    m.map (fun kv => if kv.1 == k then (k, v) else kv)
  else
    m ++ [(k, v)]

/-- Python `dict.update`: insert every pair of `upd` in order. -/
def odictUpdate (m upd : List (String × String)) : List (String × String) :=
  upd.foldl (fun acc kv => odictInsert acc kv.1 kv.2) m

/-- Python `dict` lookup. -/
def odictGet (m : List (String × String)) (k : String) : Option String :=
  (m.find? (fun kv => kv.1 == k)).map Prod.snd

/-- The values view of an ordered dictionary (`dict.values()`). -/
def odictValues (m : List (String × String)) : List String :=
  m.map Prod.snd

/-! ## The unit lexicon (`UNITS` of `kep/spec.py`) -/

/-- The `UNITS` ordered mapper dictionary of `kep/spec.py`, in its
declared order. -/
def UNITS : List (String × String) :=
  [("млрд.долларов", "bln_usd"),
   ("млрд. долларов", "bln_usd"),
   ("млрд, долларов", "bln_usd"),
   ("млрд.рублей", "bln_rub"),
   ("млрд. рублей", "bln_rub"),
   ("рублей / rubles", "rub"),
   ("млн.рублей", "mln_rub"),
   ("Индекс физического объема произведенного ВВП, в %", "yoy"),
   ("в % к декабрю предыдущего года", "ytd"),
   ("в % к предыдущему месяцу", "rog"),
   ("в % к предыдущему периоду", "rog"),
   ("% к концу предыдущего периода", "rog"),
   ("период с начала отчетного года в % к соответствующему периоду предыдущего года", "ytd"),
   ("в % к соответствующему периоду предыдущего года", "yoy"),
   ("в % к соответствующему месяцу предыдущего года", "yoy"),
   ("отчетный месяц в % к предыдущему месяцу", "rog"),
   ("отчетный месяц в % к соответствующему месяцу предыдущего года", "yoy"),
   ("период с начала отчетного года", "ytd"),
   ("%", "pct"),
   ("в % к ВВП", "gdp_percent"),
   ("млрд. тонно-км", "bln_tkm"),
   ("продукты питания", "rog"),
   ("алкогольные напитки", "rog"),
   ("непродовольственные товары", "rog"),
   ("непродовольст- венные товары", "rog"),
   ("услуги", "rog")]

/-- Embeds `UNITS.values()`: the unit codes a required unit is checked
against. -/
def unitsValues : List String :=
  odictValues UNITS

/-! ## `as_list` and the Python argument model -/

/-- A Python value passed where `as_list` expects a string or a list:
a string, a list of strings, a tuple of strings, or a value of any
other type (carrying only its printed form). -/
inductive PyStrList where
  | str (s : String)
  | list (l : List String)
  | tup (l : List String)
  | bad (t : String)

deriving instance DecidableEq for PyStrList

/-- Embeds `kep.spec.as_list`: wrap a string, keep a list, convert a tuple,
raise `TypeError` otherwise. -/
def as_list : PyStrList → Except String (List String)
  | .str s => Except.ok [s]
  | .list l => Except.ok l
  | .tup l => Except.ok l
  | .bad t => Except.error ("TypeError: " ++ t ++ " has wrong type, list or str expected.")

/-! ## `ParsingInstruction` -/

/-- Embeds `kep.spec.ParsingInstruction`: label-to-varname ordered mapping,
ordered (varname, required unit) list, varname-to-description ordered
mapping. -/
structure ParsingInstruction where
  varname_mapper : List (String × String)
  required_labels : List (String × String)
  descriptions : List (String × String)

deriving instance DecidableEq for ParsingInstruction

/-- Embeds `ParsingInstruction.__init__`: all three containers empty. -/
def ParsingInstruction.empty : ParsingInstruction :=
  ⟨[], [], []⟩

/-- Embeds `ParsingInstruction._verify_inputs`: `some message` when the call
raises, `none` when it passes. A varname already among the mapper's
values raises; then each required unit (listified, which may itself
raise `TypeError`) must be among `UNITS.values()`. -/
def ParsingInstruction.verify_inputs (p : ParsingInstruction)
    (varname : String) (required_units : PyStrList) : Option String :=
  if varname ∈ odictValues p.varname_mapper then
    some ("ValueError: Variable name <" ++ varname ++ "> already defined")
  else
    match as_list required_units with
    | .error e => some e
    | .ok rus =>
      match rus.find? (fun ru => !(unitsValues.contains ru)) with
      | some ru => some ("ValueError: Unit <" ++ ru ++ "> not defined")
      | none => none

/-- Embeds `ParsingInstruction.append` run operationally: the returned state
together with `none`, or the state at the raise point together with
`some message`. Mirrors the source order: validate, listify the label
text, default the description to the first header string (an
`IndexError` when there is none), listify the units, then update all
three containers. -/
def ParsingInstruction.append (p : ParsingInstruction) (varname : String)
    (text : PyStrList) (required_units : PyStrList) (desc : Option String) :
    ParsingInstruction × Option String :=
  match p.verify_inputs varname required_units with
  | some e => (p, some e)
  | none =>
    match as_list text with
    | .error e => (p, some e)
    | .ok header_strings =>
      match desc.or header_strings.head? with
      | none => (p, some "IndexError: list index out of range")
      | some d =>
        match as_list required_units with
        | .error e => (p, some e)
        | .ok rus =>
          ({ varname_mapper :=
               odictUpdate p.varname_mapper
                 (header_strings.map (fun hs => (hs, varname))),
             required_labels :=
               p.required_labels ++ rus.map (fun u => (varname, u)),
             descriptions := odictUpdate p.descriptions [(varname, d)] },
           none)

/-! ## `Scope` -/

/-- Embeds `kep.spec.Scope`: the ordered alternatives of (start, end) marker
pairs. -/
structure Scope where
  markers : List (String × String)

deriving instance DecidableEq for Scope

/-- Embeds `Scope.add_bounds`: reject an empty marker (Python truthiness of
the strings), otherwise push the pair. -/
def Scope.add_bounds (sc : Scope) (s e : String) : Except String Scope :=
  if s ≠ "" ∧ e ≠ "" then
    Except.ok ⟨sc.markers ++ [(s, e)]⟩
  else
    Except.error "ValueError: Cannot accept empty line as Scope() boundary"

/-- Embeds `Scope.__init__`: start from no markers and add the first pair. -/
def Scope.init (s e : String) : Except String Scope :=
  Scope.add_bounds ⟨[]⟩ s e

/-- Embeds `Scope._is_found`: the marker is present iff some row's label
starts with it (rows are `Row` values, so the quote-normalizing
prefix test applies). -/
def scopeIsFound (line : String) (rows : List Row) : Bool :=
  rows.any (fun r => r.startswith line)

/-- One diagnostic line of `Scope._error_message`: the found flag and
the marker. -/
def mkFoundLine (b : Bool) (line : String) : String :=
  "is_found: " ++ (if b then "True" else "False") ++ " <" ++ line ++ ">"

/-- The message lines accumulated by `Scope._error_message`: the
header, then per alternative a line for its start marker and a line
for its end marker. -/
def scopeErrorLines (markers : List (String × String)) (rows : List Row) :
    List String :=
  markers.foldl
    (fun msg m =>
      msg ++ [mkFoundLine (scopeIsFound m.1 rows) m.1,
              mkFoundLine (scopeIsFound m.2 rows) m.2])
    ["start or end line not found in rows"]

/-- Embeds `Scope._error_message`: the lines joined with a newline. -/
def scopeErrorMessage (sc : Scope) (rows : List Row) : String :=
  String.intercalate "\n" (scopeErrorLines sc.markers rows)

/-- The loop of `Scope.get_bounds` over the marker alternatives.
`all` is the full marker list, kept for the error message. -/
def getBoundsLoop (all : List (String × String)) (rows : List Row) :
    List (String × String) → Except String (String × String)
  | [] => Except.error (String.intercalate "\n" (scopeErrorLines all rows))
  | m :: rest =>
    if scopeIsFound m.1 rows && scopeIsFound m.2 rows then
      Except.ok m
    else
      getBoundsLoop all rows rest

/-- Embeds `Scope.get_bounds`: the first marker alternative whose start and
end are both found in the rows, or the diagnostic error. -/
def Scope.get_bounds (sc : Scope) (rows : List Row) :
    Except String (String × String) :=
  getBoundsLoop sc.markers rows sc.markers

/-! ## `Definition` -/

/-- Embeds `kep.spec.Definition`: a parsing instruction with an optional
scope and an optional reader name (`False` becomes `none`). -/
structure Definition where
  instr : ParsingInstruction
  scope : Option Scope
  reader : Option String

deriving instance DecidableEq for Definition

/-- Embeds `Definition.__init__` with the given optional scope and reader and
a fresh instruction. -/
def Definition.init (scope : Option Scope) (reader : Option String) :
    Definition :=
  ⟨ParsingInstruction.empty, scope, reader⟩

/-- Embeds `Definition.append` delegates to the instruction (operational:
state at raise point plus optional error). -/
def Definition.append (d : Definition) (varname : String) (text : PyStrList)
    (required_units : PyStrList) (desc : Option String) :
    Definition × Option String :=
  let (p, e) := d.instr.append varname text required_units desc
  ({ d with instr := p }, e)

/-- Embeds `Definition.get_varname_mapper`. -/
def Definition.get_varname_mapper (d : Definition) : List (String × String) :=
  d.instr.varname_mapper

/-- Embeds `Definition.get_required_labels`. -/
def Definition.get_required_labels (d : Definition) : List (String × String) :=
  d.instr.required_labels

/-- Embeds `Definition.get_varnames` = `list(set(mapper.values()))`: the
distinct variable names (a Python `list`). -/
def Definition.get_varnames (d : Definition) : List String :=
  (odictValues d.instr.varname_mapper).dedup

/-- Embeds `Definition.get_bounds`: delegate to the scope; a Definition built
without a scope holds `False` there, and `False.get_bounds` raises
`AttributeError` whatever the rows are. -/
def Definition.get_bounds (d : Definition) (rows : List Row) :
    Except String (String × String) :=
  match d.scope with
  | some sc => sc.get_bounds rows
  | none => Except.error "AttributeError: bool object has no attribute get_bounds"

/-! ## `Specification` -/

/-- Embeds `kep.spec.Specification`: the default (main) definition plus the
ordered segment definitions. -/
structure Specification where
  main : Definition
  segment_definitions : List Definition

deriving instance DecidableEq for Specification

/-- Embeds `Specification.__init__(default)`. -/
def Specification.init (default : Definition) : Specification :=
  ⟨default, []⟩

/-- Embeds `Specification.append(pdef)`. -/
def Specification.append (s : Specification) (pdef : Definition) :
    Specification :=
  ⟨s.main, s.segment_definitions ++ [pdef]⟩

/-- Appending a whole list of segment definitions in order. -/
def Specification.appendAll (s : Specification) (l : List Definition) :
    Specification :=
  l.foldl Specification.append s

/-- Embeds `Specification.all_definitions` = `[self.main] + self.segment_definitions`. -/
def Specification.all_definitions (s : Specification) : List Definition :=
  [s.main] ++ s.segment_definitions

/-- Embeds `Specification.get_required_labels`: extend over all
definitions. -/
def Specification.get_required_labels (s : Specification) :
    List (String × String) :=
  s.all_definitions.foldl (fun acc d => acc ++ d.get_required_labels) []

/-- A Python object held by the set in `Specification.get_varnames`:
either a string (hashable) or a list of strings (unhashable). -/
inductive PyObj where
  | pystr (s : String)
  | pylist (l : List String)

deriving instance DecidableEq for PyObj

/-- Python `set.add`: extend the set with a hashable value, raise
`TypeError` on an unhashable one (a list). -/
def pySetAdd (s : List PyObj) (x : PyObj) : Except String (List PyObj) :=
  match x with
  | .pystr _ => Except.ok (if s.contains x then s else s ++ [x])
  | .pylist _ => Except.error "TypeError: unhashable type: list"

/-- Embeds `Specification.get_varnames` as written in the source: start from
an empty set and `set.add` the list `pdef.get_varnames()` of every
held definition. -/
def Specification.get_varnames (s : Specification) :
    Except String (List PyObj) :=
  s.all_definitions.foldlM
    (fun acc d => pySetAdd acc (PyObj.pylist d.get_varnames)) []

/-! ## Helper lemmas -/

/-- Appending segment definitions one by one leaves the main
definition alone and extends the segment list on the right. -/
theorem appendAll_fields (s : Specification) (l : List Definition) :
    (s.appendAll l).main = s.main ∧
      (s.appendAll l).segment_definitions = s.segment_definitions ++ l := by
  induction l generalizing s with
  | nil => simp [Specification.appendAll]
  | cons d t ih =>
    have h := ih (s.append d)
    simpa [Specification.appendAll, Specification.append, List.append_assoc]
      using h

/-- Looking up the key just assigned by a Python dict assignment
returns the assigned value. -/
theorem odictGet_odictInsert (m : List (String × String)) (k v : String) :
    odictGet (odictInsert m k v) k = some v := by
  unfold odictGet odictInsert
  by_cases h : m.any (fun kv => kv.1 == k)
  · rw [if_pos h]
    induction m with
    | nil => simp at h
    | cons a t ih =>
      by_cases ha : (a.1 == k) = true
      · simp only [List.map_cons, if_pos ha]
        have hf : List.find? (fun kv => kv.1 == k)
            ((k, v) :: t.map (fun kv => if kv.1 == k then (k, v) else kv)) =
            some (k, v) :=
          List.find?_cons_of_pos _ (by simp)
        rw [hf]
        rfl
      · simp only [List.map_cons, if_neg ha]
        have hf : List.find? (fun kv => kv.1 == k)
            (a :: t.map (fun kv => if kv.1 == k then (k, v) else kv)) =
            List.find? (fun kv => kv.1 == k)
              (t.map (fun kv => if kv.1 == k then (k, v) else kv)) :=
          List.find?_cons_of_neg _ ha
        rw [hf]
        exact ih (by simpa [List.any_cons, ha] using h)
  · rw [if_neg h]
    have hnone : m.find? (fun kv => kv.1 == k) = none := by
      rw [List.find?_eq_none]
      intro x hx hpx
      exact h (List.any_eq_true.mpr ⟨x, hx, hpx⟩)
    simp [List.find?_append, hnone]

/-- The first element of an appended list satisfying the predicate,
when the whole left part fails it. -/
theorem find?_left_none_cons {α : Type} (pr : List α) (x : α) (post : List α)
    (p : α → Bool) (h : ∀ q ∈ pr, p q = false) (hx : p x = true) :
    (pr ++ x :: post).find? p = some x := by
  induction pr with
  | nil => simp [List.find?_cons_of_pos, hx]
  | cons a t ih =>
    have ha : ¬ p a = true := by simp [h a (by simp)]
    rw [List.cons_append, List.find?_cons_of_neg _ ha]
    exact ih (fun q hq => h q (by simp [hq]))

/-- The diagnostic accumulator of `Scope._error_message` appends two
lines per marker alternative after its initial value. -/
theorem scopeErrorLines_eq (markers : List (String × String))
    (rows : List Row) :
    scopeErrorLines markers rows =
      "start or end line not found in rows" ::
        (markers.map (fun m =>
          [mkFoundLine (scopeIsFound m.1 rows) m.1,
           mkFoundLine (scopeIsFound m.2 rows) m.2])).flatten := by
  unfold scopeErrorLines
  suffices h : ∀ (init : List String),
      markers.foldl
        (fun msg m =>
          msg ++ [mkFoundLine (scopeIsFound m.1 rows) m.1,
                  mkFoundLine (scopeIsFound m.2 rows) m.2]) init =
        init ++ (markers.map (fun m =>
          [mkFoundLine (scopeIsFound m.1 rows) m.1,
           mkFoundLine (scopeIsFound m.2 rows) m.2])).flatten by
    simpa using h ["start or end line not found in rows"]
  induction markers with
  | nil => simp
  | cons m t ih => intro init; simp [List.foldl_cons, ih, List.append_assoc]

/-- The marker loop of `Scope.get_bounds` returns the first
alternative whose two markers are both found, and the diagnostic
message otherwise. -/
theorem getBoundsLoop_eq_find? (all : List (String × String))
    (rows : List Row) (l : List (String × String)) :
    getBoundsLoop all rows l =
      match l.find? (fun m => scopeIsFound m.1 rows && scopeIsFound m.2 rows) with
      | some m => Except.ok m
      | none => Except.error (String.intercalate "\n" (scopeErrorLines all rows)) := by
  induction l with
  | nil => rfl
  | cons m rest ih =>
    cases h : (scopeIsFound m.1 rows && scopeIsFound m.2 rows) with
    | true =>
      have hf : (m :: rest).find?
          (fun x => scopeIsFound x.1 rows && scopeIsFound x.2 rows) = some m :=
        List.find?_cons_of_pos _ h
      rw [hf]
      simp [getBoundsLoop, h]
    | false =>
      have hf : (m :: rest).find?
          (fun x => scopeIsFound x.1 rows && scopeIsFound x.2 rows) =
          rest.find? (fun x => scopeIsFound x.1 rows && scopeIsFound x.2 rows) :=
        List.find?_cons_of_neg _ (by simp [h])
      rw [hf, ← ih]
      simp [getBoundsLoop, h]

/-- Dropping quote characters is idempotent. -/
theorem normQuotes_normQuotes (s : String) :
    normQuotes (normQuotes s) = normQuotes s := by
  unfold normQuotes
  congr 1
  induction s.toList with
  | nil => rfl
  | cons c t ih =>
    by_cases hc : isQuoteChar c
    · simp [hc, ih]
    · simp [hc, ih]

/-! ## Claim theorems -/

/-- C1 counterexample: on the Specification built from a default
definition and one appended segment definition, `all_definitions`
does not put the default last — it puts it first. -/
theorem all_definitions_default_last_cex :
    ((Specification.init (Definition.init none none)).append
        (Definition.init none (some "fiscal"))).all_definitions ≠
      [Definition.init none (some "fiscal"), Definition.init none none] ∧
    ((Specification.init (Definition.init none none)).append
        (Definition.init none (some "fiscal"))).all_definitions =
      [Definition.init none none, Definition.init none (some "fiscal")] := by
  constructor
  · decide
  · rfl

/-- C1 (amended): for every Specification built from a default
definition and any sequence of appended segment definitions,
`all_definitions` returns the default definition first, followed by
the segment definitions in appended order. -/
theorem all_definitions_default_first (d0 : Definition)
    (l : List Definition) :
    ((Specification.init d0).appendAll l).all_definitions = d0 :: l := by
  obtain ⟨h1, h2⟩ := appendAll_fields (Specification.init d0) l
  unfold Specification.all_definitions
  rw [h1, h2]
  simp [Specification.init]

/-- C2: `Specification.get_varnames` never aggregates anything — it
raises `TypeError` on every Specification, because it adds the list
returned by `Definition.get_varnames` to a Python set and lists are
unhashable. -/
theorem get_varnames_raises_unhashable (s : Specification) :
    s.get_varnames = Except.error "TypeError: unhashable type: list" := rfl

/-- C10: a Definition holding no Scope (the document-wide default)
raises on `get_bounds` for every rows argument, since its `scope`
attribute is the Boolean `False`. -/
theorem get_bounds_without_scope_raises (d : Definition)
    (rows : List Row) (h : d.scope = none) :
    d.get_bounds rows =
      Except.error "AttributeError: bool object has no attribute get_bounds" := by
  simp [Definition.get_bounds, h]

/-- C10 witness: the freshly constructed scopeless Definition raises
on the mock rows. -/
theorem get_bounds_without_scope_raises_witness :
    (Definition.init none none).get_bounds mockRows =
      Except.error "AttributeError: bool object has no attribute get_bounds" :=
  get_bounds_without_scope_raises (Definition.init none none) mockRows rfl

/-- C3: popping a segment returns the contiguous run from the first
row prefix-matching the start marker up to but excluding the first
subsequent row prefix-matching the end marker, and the end-marker row
stays first among the remaining rows; on the mock rows,
pop "bat" "dot" returns [bat, can] leaving [dot, wed, zed] and
pop "apt" "wed" returns 4 rows leaving [wed, zed]. -/
theorem rowstack_pop_spec (rows : List Row) (s e : String) (i k : Nat)
    (hi : rows.findIdx (startsP s) = i)
    (hilt : i < rows.length)
    (hk : (rows.drop (i + 1)).findIdx (startsP e) = k)
    (hklt : i + 1 + k < rows.length) :
    (popSegment rows s e).1 = (rows.take (i + 1 + k)).drop i ∧
    (popSegment rows s e).2 = rows.drop (i + 1 + k) ∧
    (popSegment rows s e).2.head? = some (rows.get ⟨i + 1 + k, hklt⟩) ∧
    startsP e (rows.get ⟨i + 1 + k, hklt⟩) = true ∧
    startsP s (rows.get ⟨i, hilt⟩) = true ∧
    (popSegment rows s e).1.head? = some (rows.get ⟨i, hilt⟩) ∧
    (∀ m (hm : m < i), startsP s (rows.get ⟨m, Nat.lt_trans hm hilt⟩) = false) ∧
    (∀ m (hm : m < k),
      startsP e (rows.get ⟨i + 1 + m,
        Nat.lt_trans (Nat.add_lt_add_left hm (i + 1)) hklt⟩) = false) ∧
    popSegment mockRows "bat" "dot" =
      ([⟨"bat aa...ah", ["1", "2"]⟩, ⟨"can extra text", ["1", "2"]⟩],
       [⟨"dot oo...eh", ["1", "2"]⟩, ⟨"wed more text", ["1", "2"]⟩,
        ⟨"zed some text", []⟩]) ∧
    (popSegment mockRows "apt" "wed").1.length = 4 ∧
    (popSegment mockRows "apt" "wed").2 =
      [⟨"wed more text", ["1", "2"]⟩, ⟨"zed some text", []⟩] := by
  have hkd : k < (rows.drop (i + 1)).length := by
    rw [List.length_drop]; omega
  have hpop : popSegment rows s e =
      ((rows.take (i + 1 + k)).drop i, rows.drop (i + 1 + k)) := by
    simp only [popSegment, hi, hk]
  obtain ⟨hse, hemin⟩ := (List.findIdx_eq hkd).mp hk
  obtain ⟨hss, hsmin⟩ := (List.findIdx_eq hilt).mp hi
  refine ⟨by rw [hpop], by rw [hpop], ?_, ?_, ?_, ?_, ?_, ?_,
    by decide, by decide, by decide⟩
  · rw [hpop]
    simp [List.head?_drop, List.getElem?_eq_getElem hklt]
  · simp only [List.getElem_drop] at hse
    simpa [List.get_eq_getElem] using hse
  · simpa [List.get_eq_getElem] using hss
  · rw [hpop]
    simp only [List.head?_drop]
    rw [List.getElem?_take_of_lt (by omega)]
    simp [List.getElem?_eq_getElem hilt]
  · intro m hm
    simpa [List.get_eq_getElem] using hsmin m hm
  · intro m hm
    have h8 := hemin m hm
    simp only [List.getElem_drop] at h8
    simpa [List.get_eq_getElem] using h8

/-- C3 witness: on the mock rows, popping from "bat" to "dot" leaves
the rows from index 3 on, whose head is the end-marker row. -/
theorem rowstack_pop_spec_witness :
    (popSegment mockRows "bat" "dot").2 = mockRows.drop (1 + 1 + 1) ∧
    startsP "dot" (mockRows.get ⟨1 + 1 + 1, by decide⟩) = true := by
  have h := rowstack_pop_spec mockRows "bat" "dot" 1 1
    (by decide) (by decide) (by decide) (by decide)
  exact ⟨h.2.1, h.2.2.2.1⟩

/-- C4: resolving a row against a label-to-variable mapping returns
the not-found value when no key prefix-matches the label, the matched
key's variable when exactly one does, and the ambiguity error when
more than one does. -/
theorem row_get_varname_cases (r : Row) (mapper : List (String × String)) :
    (mapper.countP (fun kv => r.startswith kv.1) = 0 →
      r.get_varname mapper = Except.ok none) ∧
    (∀ kv, kv ∈ mapper → r.startswith kv.1 = true →
      mapper.countP (fun kv => r.startswith kv.1) = 1 →
      r.get_varname mapper = Except.ok (some kv.2)) ∧
    (2 ≤ mapper.countP (fun kv => r.startswith kv.1) →
      r.get_varname mapper = Except.error (ambiguityMessage r)) := by
  have hc := List.countP_eq_length_filter
    (p := fun kv => r.startswith kv.1) mapper
  refine ⟨?_, ?_, ?_⟩
  · intro h0
    rw [hc] at h0
    have hfil := List.length_eq_zero.mp h0
    simp only [Row.get_varname, hfil]
  · intro kv hmem hpkv h1
    rw [hc] at h1
    obtain ⟨a, hfil⟩ := List.length_eq_one.mp h1
    have hkv : kv ∈ mapper.filter (fun kv => r.startswith kv.1) :=
      List.mem_filter.mpr ⟨hmem, hpkv⟩
    rw [hfil] at hkv
    simp only [List.mem_singleton] at hkv
    simp only [Row.get_varname, hfil, hkv]
  · intro h2
    rw [hc] at h2
    obtain ⟨a, l1, hfil⟩ :
        ∃ a l1, mapper.filter (fun kv => r.startswith kv.1) = a :: l1 := by
      cases hf : mapper.filter (fun kv => r.startswith kv.1) with
      | nil => rw [hf] at h2; simp at h2
      | cons a l1 => exact ⟨a, l1, rfl⟩
    obtain ⟨b, l2, hl1⟩ : ∃ b l2, l1 = b :: l2 := by
      cases hl : l1 with
      | nil => rw [hfil, hl] at h2; simp at h2
      | cons b l2 => exact ⟨b, l2, rfl⟩
    simp only [Row.get_varname, hfil, hl1]

/-- C4 witness: the three concrete resolutions from the design
document — substring not at prefix position is not found, a single
prefix hit resolves, two prefix hits raise the ambiguity error. -/
theorem row_get_varname_cases_witness :
    (Row.mk "1. abcd" []).get_varname [("bc", "ZZZ")] = Except.ok none ∧
    (Row.mk "1. abcd" []).get_varname [("1. ab", "ZZZ")] =
      Except.ok (some "ZZZ") ∧
    (Row.mk "1. abcd" []).get_varname [("1. a", "ZZZ"), ("1. ab", "YYY")] =
      Except.error (ambiguityMessage (Row.mk "1. abcd" [])) :=
  ⟨(row_get_varname_cases (Row.mk "1. abcd" []) [("bc", "ZZZ")]).1 (by decide),
   (row_get_varname_cases (Row.mk "1. abcd" []) [("1. ab", "ZZZ")]).2.1
     ("1. ab", "ZZZ") (by decide) (by decide) (by decide),
   (row_get_varname_cases (Row.mk "1. abcd" [])
     [("1. a", "ZZZ"), ("1. ab", "YYY")]).2.2 (by decide)⟩

/-- C5: unit resolution scans the lexicon in declared order and
returns the unit code of the first pattern occurring as a substring of
the row's label. -/
theorem row_get_unit_first_pattern (r : Row) (pre : List (String × String))
    (q : String × String) (post : List (String × String))
    (h1 : ∀ x ∈ pre, strHasSub r.name x.1 = false)
    (h2 : strHasSub r.name q.1 = true) :
    r.get_unit (pre ++ q :: post) = some q.2 := by
  unfold Row.get_unit
  rw [find?_left_none_cons pre q post (fun x => strHasSub r.name x.1) h1 h2]
  rfl

/-- C5 witness: with lexicon [('%', pct), ('% change', pct_chg)], the
label "1. abcd, % change" resolves to pct, not pct_chg. -/
theorem row_get_unit_first_pattern_witness :
    (Row.mk "1. abcd, % change" []).get_unit
      [("%", "pct"), ("% change", "pct_chg")] = some "pct" ∧
    (Row.mk "1. abcd, % change" []).get_unit
      [("%", "pct"), ("% change", "pct_chg")] ≠ some "pct_chg" := by
  have h := row_get_unit_first_pattern (Row.mk "1. abcd, % change" [])
    [] ("%", "pct") [("% change", "pct_chg")] (by simp) (by decide)
  simp only [List.nil_append] at h
  exact ⟨h, by rw [h]; decide⟩

/-- C6 counterexample: with a fresh variable name and a known unit
code, append on an empty-list label text and no description still
raises (an IndexError taking the first header string), so the claim's
no-raise clause fails as stated. -/
theorem append_fresh_raises_cex :
    "V" ∉ odictValues ParsingInstruction.empty.varname_mapper ∧
    unitsValues.contains "rog" = true ∧
    ((ParsingInstruction.empty.append "V" (PyStrList.list [])
        (PyStrList.str "rog") none).2).isSome = true := by
  refine ⟨?_, by decide, by decide⟩
  simp [odictValues, ParsingInstruction.empty]

/-- C6 (amended): append raises when the variable name is already
bound or some required unit code is unknown; with a fresh variable
name, known unit codes, well-typed label text, and a nonempty header
list whenever no description is given, it does not raise. -/
theorem append_error_conditions (p : ParsingInstruction) (v : String)
    (text ru : PyStrList) (d : Option String) :
    (v ∈ odictValues p.varname_mapper →
      ((p.append v text ru d).2).isSome = true) ∧
    (∀ rus u, as_list ru = Except.ok rus → u ∈ rus →
      unitsValues.contains u = false →
      ((p.append v text ru d).2).isSome = true) ∧
    (∀ rus hs, v ∉ odictValues p.varname_mapper →
      as_list ru = Except.ok rus →
      (∀ u ∈ rus, unitsValues.contains u = true) →
      as_list text = Except.ok hs →
      (d = none → hs ≠ []) →
      (p.append v text ru d).2 = none) := by
  refine ⟨?_, ?_, ?_⟩
  · intro hv
    simp [ParsingInstruction.append, ParsingInstruction.verify_inputs, hv]
  · intro rus u hru hmem hbad
    by_cases hv : v ∈ odictValues p.varname_mapper
    · simp [ParsingInstruction.append, ParsingInstruction.verify_inputs, hv]
    · have hsome : (rus.find? (fun x => !(unitsValues.contains x))).isSome = true := by
        rw [List.find?_isSome]
        exact ⟨u, hmem, by simpa using hbad⟩
      obtain ⟨w, hw⟩ := Option.isSome_iff_exists.mp hsome
      have hver : p.verify_inputs v ru =
          some ("ValueError: Unit <" ++ w ++ "> not defined") := by
        unfold ParsingInstruction.verify_inputs
        rw [if_neg hv]
        simp only [hru, hw]
      unfold ParsingInstruction.append
      simp [hver]
  · intro rus hs hv hru hall ht hne
    have hfind : rus.find? (fun x => !(unitsValues.contains x)) = none := by
      rw [List.find?_eq_none]
      intro x hx
      rw [hall x hx]
      decide
    have hverify : p.verify_inputs v ru = none := by
      unfold ParsingInstruction.verify_inputs
      rw [if_neg hv]
      simp only [hru, hfind]
    obtain ⟨d0, hd⟩ : ∃ d0, d.or hs.head? = some d0 := by
      cases d with
      | some d0 => exact ⟨d0, rfl⟩
      | none =>
        cases hs with
        | nil => exact absurd rfl (hne rfl)
        | cons a t => exact ⟨a, rfl⟩
    unfold ParsingInstruction.append
    simp [hverify, ht, hd, hru]

/-- C6 witness: a fresh name with a known unit and a string label does
not raise; a duplicate name raises; an unknown unit raises. -/
theorem append_error_conditions_witness :
    ((ParsingInstruction.empty.append "V" (PyStrList.str "t")
        (PyStrList.str "rog") none).2) = none ∧
    (((⟨[("t", "V")], [("V", "rog")], [("V", "t")]⟩ :
        ParsingInstruction).append "V"
        (PyStrList.str "u") (PyStrList.str "pct") none).2).isSome = true ∧
    ((ParsingInstruction.empty.append "W" (PyStrList.str "t")
        (PyStrList.str "nope") none).2).isSome = true := by
  refine ⟨(append_error_conditions ParsingInstruction.empty "V"
      (PyStrList.str "t") (PyStrList.str "rog") none).2.2
      ["rog"] ["t"] (by decide) rfl (by decide) rfl (by decide),
    (append_error_conditions _ "V"
      (PyStrList.str "u") (PyStrList.str "pct") none).1 (by decide),
    (append_error_conditions ParsingInstruction.empty "W"
      (PyStrList.str "t") (PyStrList.str "nope") none).2.1
      ["nope"] "nope" rfl (by decide) (by decide)⟩

/-- C7: scope bound resolution returns the first marker alternative
whose start and end are both found (a marker being found iff some
row's quote-normalized label begins with it), and otherwise raises
with a diagnostic listing, for every alternative, each of its two
markers together with its found flag. -/
theorem scope_get_bounds_spec (sc : Scope) (rows : List Row) :
    (sc.get_bounds rows =
      match sc.markers.find?
          (fun m => scopeIsFound m.1 rows && scopeIsFound m.2 rows) with
      | some m => Except.ok m
      | none => Except.error (scopeErrorMessage sc rows)) ∧
    (∀ line, scopeIsFound line rows = true ↔
      ∃ r ∈ rows, r.startswith line = true) ∧
    (∀ m ∈ sc.markers,
      mkFoundLine (scopeIsFound m.1 rows) m.1 ∈
        scopeErrorLines sc.markers rows ∧
      mkFoundLine (scopeIsFound m.2 rows) m.2 ∈
        scopeErrorLines sc.markers rows) ∧
    (∀ r line, Row.startswith r (normQuotes line) = Row.startswith r line) := by
  refine ⟨?_, ?_, ?_, ?_⟩
  · unfold Scope.get_bounds scopeErrorMessage
    rw [getBoundsLoop_eq_find?]
  · intro line
    simp [scopeIsFound, List.any_eq_true]
  · intro m hm
    rw [scopeErrorLines_eq]
    constructor
    · exact List.mem_cons_of_mem _
        (List.mem_flatten.mpr ⟨_, List.mem_map_of_mem _ hm, by simp⟩)
    · exact List.mem_cons_of_mem _
        (List.mem_flatten.mpr ⟨_, List.mem_map_of_mem _ hm, by simp⟩)
  · intro r line
    unfold Row.startswith
    rw [normQuotes_normQuotes]

/-- C7 witness: on two rows matching only the second alternative,
resolution skips the first alternative and returns the second, and the
diagnostic lines include the first alternative's unfound start
marker. -/
theorem scope_get_bounds_spec_witness :
    (Scope.mk [("x", "y"), ("a", "b")]).get_bounds
      [⟨"a 1", []⟩, ⟨"b 2", []⟩] = Except.ok ("a", "b") ∧
    mkFoundLine false "x" ∈
      scopeErrorLines [("x", "y"), ("a", "b")] [⟨"a 1", []⟩, ⟨"b 2", []⟩] := by
  have h := scope_get_bounds_spec (Scope.mk [("x", "y"), ("a", "b")])
    [⟨"a 1", []⟩, ⟨"b 2", []⟩]
  constructor
  · rw [h.1]
    rfl
  · have h3 := (h.2.2.1 ("x", "y") (by decide)).1
    have hx : scopeIsFound "x" [(⟨"a 1", []⟩ : Row), ⟨"b 2", []⟩] = false := by
      decide
    rw [hx] at h3
    exact h3

/-- C8: append is atomic on error — whenever it raises, the
instruction's three containers are exactly as before the call, because
every validation and computation precedes every mutation. -/
theorem append_atomic_on_error (p : ParsingInstruction) (v : String)
    (text ru : PyStrList) (d : Option String)
    (h : ((p.append v text ru d).2).isSome = true) :
    (p.append v text ru d).1 = p := by
  unfold ParsingInstruction.append at h ⊢
  cases hv : p.verify_inputs v ru with
  | some e => simp [hv]
  | none =>
    cases ht : as_list text with
    | error e => simp [hv, ht]
    | ok hs =>
      cases hd : d.or hs.head? with
      | none => simp [hv, ht, hd]
      | some d0 =>
        cases hr : as_list ru with
        | error e => simp [hv, ht, hd, hr]
        | ok rus =>
          exfalso
          simp [hv, ht, hd, hr] at h

/-- C8 witness: a duplicate-name append raises and leaves the
instruction unchanged. -/
theorem append_atomic_on_error_witness :
    (((⟨[("t", "V")], [], []⟩ : ParsingInstruction).append "V"
        (PyStrList.str "u") (PyStrList.str "rog") none).2).isSome = true ∧
    (((⟨[("t", "V")], [], []⟩ : ParsingInstruction).append "V"
        (PyStrList.str "u") (PyStrList.str "rog") none).1) =
      ⟨[("t", "V")], [], []⟩ :=
  ⟨by decide, append_atomic_on_error ⟨[("t", "V")], [], []⟩ "V"
    (PyStrList.str "u") (PyStrList.str "rog") none (by decide)⟩

/-- C9: when append is called with a string label text and no
description, the variable's description is set to that label text. -/
theorem append_default_description (p : ParsingInstruction) (v t : String)
    (ru : PyStrList)
    (h : (p.append v (PyStrList.str t) ru none).2 = none) :
    odictGet ((p.append v (PyStrList.str t) ru none).1).descriptions v =
      some t := by
  unfold ParsingInstruction.append at h ⊢
  cases hv : p.verify_inputs v ru with
  | some e => rw [hv] at h; simp at h
  | none =>
    rw [hv] at h
    cases hr : as_list ru with
    | error e =>
      rw [hr] at h
      simp [as_list] at h
    | ok rus =>
      show odictGet (odictUpdate p.descriptions [(v, t)]) v = some t
      simp only [odictUpdate, List.foldl_cons, List.foldl_nil]
      exact odictGet_odictInsert p.descriptions v t

/-- C9 witness: appending "V" with label "txt", unit "rog" and no
description maps "V" to description "txt". -/
theorem append_default_description_witness :
    odictGet ((ParsingInstruction.empty.append "V" (PyStrList.str "txt")
        (PyStrList.str "rog") none).1).descriptions "V" = some "txt" :=
  append_default_description ParsingInstruction.empty "V" "txt"
    (PyStrList.str "rog") (by decide)

end Kep
